import Mathlib

/-!
Shallow embedding of `src/src/uhs/twophase/sentinel_2pc/controller.cpp`
(the sentinel_2pc controller of a two-phase-commit CBDC ledger, with an
Oracle-database audit sink bolted onto coordinator submission).

External collaborators are oracle parameters:
the transaction validator (`check`), the per-peer dispatch outcome
(`dispatchOk`), the peers' validate results (`peerResult`), the random
draw stream (`draws`), the coordinator transport's per-attempt acceptance
(`accept`) and the coordinator's eventual completion value (`coordRes`).
The asynchronous continuation chain is rendered as a recursive function
producing the list of observable events for one transaction; the unbounded
loops (attestation gathering, coordinator-submission retry) are bounded by
explicit fuel, a pure modelling device.
-/

namespace CbdcSentinel2PC

/-- Caller-facing transaction status (cbdc::sentinel::tx_status). -/
inductive TxStatus where
  | pending
  | static_invalid
  | state_invalid
  | confirmed
deriving DecidableEq

/-- Validation violation kinds are opaque to the controller; modelled as Nat. -/
abbrev Violation := Nat

/-- cbdc::sentinel::execute_response: a status plus an optional violation. -/
structure ExecuteResponse where
  tx_status : TxStatus
  validation_err : Option Violation
deriving DecidableEq

/-- Provenance of an attestation: this sentinel itself, or peer client i.
Distinct sentinels sign with distinct keys, so attestations from distinct
sources are distinct set elements. -/
inductive Att where
  | self
  | peer (i : Nat)
deriving DecidableEq

/-- Observable actions of the controller while processing one transaction:
compact-tx construction, self-attestation, an accepted validate dispatch to
peer i, an invocation of the caller's result callback, a coordinator
submit attempt, and the fixed retry sleep of the submission loop. -/
inductive Event where
  | compactTxBuilt
  | selfAttest
  | peerValidate (i : Nat)
  | resultCb (r : Option ExecuteResponse)
  | coordSubmitAttempt (atts : Finset Att)
  | retryDelay
deriving DecidableEq

/-- controller::result_handler (controller.cpp:143-157): maps the
coordinator's completion value to the list of result-callback invocations it
performs (each branch calls the callback exactly once).  `some true` becomes
`confirmed`, `some false` becomes `state_invalid`, `none` is forwarded as an
absent response. -/
def result_handler (res : Option Bool) : List (Option ExecuteResponse) :=
  match res with
  | some v =>
      let resp : ExecuteResponse :=
        { tx_status := TxStatus.confirmed, validation_err := none }
      let resp2 :=
        if v then resp else { resp with tx_status := TxStatus.state_invalid }
      [some resp2]
  | none => [none]

/-- controller::send_compact_tx (controller.cpp:225-242), submission loop
only (the trailing Oracle-database audit writes are out-of-scope side
effects).  `accept n` is whether the n-th call to
`m_coordinator_client.execute_transaction` is accepted for dispatch; while it
is not, the loop sleeps a fixed delay and retries.  On acceptance the
coordinator's completion value `coordRes` is eventually delivered through
`result_handler`.  `fuel` bounds the unbounded loop for the model. -/
def send_compact_tx (accept : Nat → Bool) (coordRes : Option Bool)
    (atts : Finset Att) : Nat → Nat → List Event
  | _, 0 => []
  | attempt, fuel+1 =>
    if accept attempt then
      Event.coordSubmitAttempt atts ::
        (result_handler coordRes).map Event.resultCb
    else
      Event.coordSubmitAttempt atts :: Event.retryDelay ::
        send_compact_tx accept coordRes atts (attempt+1) fuel

/-- The candidate-drawing loop inside controller::gather_attestations
(controller.cpp:198-216): repeatedly draw a peer index from the stream
`draws`; skip it if already in `requested`; otherwise attempt the dispatch,
and on dispatch failure keep drawing.  Returns the dispatched peer and the
remaining draw stream, or `none` when the finite draw oracle is exhausted
(modelling the loop spinning without success). -/
def selectPeer (dispatchOk : Nat → Bool) (requested : Finset Nat) :
    List Nat → Option (Nat × List Nat)
  | [] => none
  | d :: rest =>
    if d ∈ requested then selectPeer dispatchOk requested rest
    else if dispatchOk d then some (d, rest)
    else selectPeer dispatchOk requested rest

/-- controller::gather_attestations (controller.cpp:192-223) fused with the
validate-result continuation it installs (controller.cpp:207-215 and
controller::validate_result_handler, controller.cpp:173-190).  While the
attestation set is below threshold: select a peer not yet in `requested`,
dispatch a validate request to it, and continue in its callback with the
copy `requested ∪ {p}`; a peer answering `none` (remote invalidation) makes
the controller invoke the caller's callback with an absent response and
stop; a peer answering an attestation has it inserted and the gathering
step re-evaluated.  Once at threshold, the compact tx goes to
send_compact_tx.  `fuel` bounds the recursion depth for the model. -/
def gather_attestations (dispatchOk : Nat → Bool) (peerResult : Nat → Option Att)
    (accept : Nat → Bool) (coordRes : Option Bool) (sendFuel threshold : Nat) :
    Nat → List Nat → Finset Att → Finset Nat → List Event
  | 0, _, atts, _ =>
    if atts.card < threshold then []
    else send_compact_tx accept coordRes atts 0 sendFuel
  | fuel+1, draws, atts, requested =>
    if atts.card < threshold then
      match selectPeer dispatchOk requested draws with
      | none => []
      | some (p, rest) =>
        Event.peerValidate p ::
          (match peerResult p with
           | none => [Event.resultCb none]
           | some a =>
             gather_attestations dispatchOk peerResult accept coordRes sendFuel
               threshold fuel rest (insert a atts) (insert p requested))
    else
      send_compact_tx accept coordRes atts 0 sendFuel

/-- controller::validate_result_handler (controller.cpp:173-190) as a
standalone function: `v_res = none` (remote sentinel reported the tx
invalid) invokes the caller's result callback with an absent response and
returns; `v_res = some a` inserts the attestation into the compact tx and
re-enters gather_attestations with the `requested` set it was handed. -/
def validate_result_handler (dispatchOk : Nat → Bool)
    (peerResult : Nat → Option Att) (accept : Nat → Bool)
    (coordRes : Option Bool) (sendFuel threshold fuel : Nat)
    (draws : List Nat) (v_res : Option Att) (ctx_atts : Finset Att)
    (requested : Finset Nat) : List Event :=
  match v_res with
  | none => [Event.resultCb none]
  | some a =>
    gather_attestations dispatchOk peerResult accept coordRes sendFuel
      threshold fuel draws (insert a ctx_atts) requested

/-- controller::execute_transaction (controller.cpp:114-141): run the
validator; on a violation invoke the result callback once with
`static_invalid` carrying the reason and return true; otherwise build the
compact tx (empty attestation set), self-attest iff the threshold is
positive, and start gather_attestations with an empty `requested` set.
Returns the function's boolean return value paired with the event trace. -/
def execute_transaction (check : Nat → Option Violation)
    (dispatchOk : Nat → Bool) (peerResult : Nat → Option Att)
    (accept : Nat → Bool) (coordRes : Option Bool)
    (sendFuel gatherFuel threshold : Nat) (draws : List Nat)
    (tx : Nat) : Bool × List Event :=
  match check tx with
  | some err =>
    (true, [Event.resultCb (some { tx_status := TxStatus.static_invalid,
                                   validation_err := some err })])
  | none =>
    let atts0 : Finset Att := ∅
    let atts1 := if 0 < threshold then insert Att.self atts0 else atts0
    (true,
      Event.compactTxBuilt ::
        ((if 0 < threshold then [Event.selfAttest] else []) ++
          gather_attestations dispatchOk peerResult accept coordRes sendFuel
            threshold gatherFuel draws atts1 ∅))

/-- Peer indices of the validate requests dispatched in a trace. -/
def dispatched (evs : List Event) : List Nat :=
  evs.filterMap (fun e => match e with
    | Event.peerValidate i => some i
    | _ => none)

/-- Attestation sets carried by the coordinator submit attempts of a trace. -/
def submit_atts (evs : List Event) : List (Finset Att) :=
  evs.filterMap (fun e => match e with
    | Event.coordSubmitAttempt a => some a
    | _ => none)

/-- Number of coordinator submit calls issued in a trace. -/
def submit_count (evs : List Event) : Nat := (submit_atts evs).length

/-- Number of fixed retry sleeps taken in a trace. -/
def delay_count (evs : List Event) : Nat :=
  evs.countP (fun e => match e with
    | Event.retryDelay => true
    | _ => false)

/-- Values the caller's result callback is invoked with in a trace. -/
def callbacks (evs : List Event) : List (Option ExecuteResponse) :=
  evs.filterMap (fun e => match e with
    | Event.resultCb r => some r
    | _ => none)

/-- The coordinator-endpoint selection of the controller constructor
(controller.cpp:19-31): `opts.m_coordinator_endpoints[sentinel_id %
static_cast<uint32_t>(opts.m_coordinator_endpoints.size())]`.  Both
operands are uint32_t, modelled by reduction mod 2^32; a zero divisor (in
particular an empty endpoint list) is C++ undefined behaviour, modelled as
the error value `none`. -/
def coordinator_endpoint (eps : List Nat) (sentinel_id : Nat) : Option Nat :=
  let n := eps.length % 2^32
  if n = 0 then none
  else some (eps.getD (sentinel_id % 2^32 % n) 0)

/-- The slice of cbdc::config::options the controller reads. -/
structure SentinelOptions where
  coordinator_endpoints : List Nat
  sentinel_endpoints : List Nat
  sentinel_private_keys : List (Nat × Nat)
  attestation_threshold : Nat

/-- Lookup in m_opts.m_sentinel_private_keys. -/
def find_private_key (keys : List (Nat × Nat)) (id : Nat) : Option Nat :=
  (keys.find? (fun kv => kv.1 = id)).map Prod.snd

/-- Number of peer sentinel clients built by init (controller.cpp:80-91):
one per configured sentinel endpoint whose value differs from this
sentinel's own endpoint. -/
def peer_count (endpoints : List Nat) (sentinel_id : Nat) : Nat :=
  match endpoints.get? sentinel_id with
  | none => 0
  | some self_ep => (endpoints.filter (fun ep => ep ≠ self_ep)).length

/-- controller::init (controller.cpp:33-112), return value only.  The
Oracle-database connection and the bounded coordinator-client retry loop
affect logging but never the return value; the RPC-server start outcome is
the oracle `rpc_server_ok`.  init fails iff the sentinel endpoint list is
empty, the sentinel id is out of range for it, a positive attestation
threshold has no private key configured for this sentinel, or the RPC
server fails to start. -/
def controller_init (opts : SentinelOptions) (sentinel_id : Nat)
    (rpc_server_ok : Bool) : Bool :=
  if opts.sentinel_endpoints.isEmpty then false
  else if opts.sentinel_endpoints.length ≤ sentinel_id then false
  else if (find_private_key opts.sentinel_private_keys sentinel_id).isNone
          ∧ 0 < opts.attestation_threshold then false
  else if rpc_server_ok = false then false
  else true

/-! ### Helper lemmas about the submission loop -/

/-- Every event of the submission loop is a submit attempt (carrying exactly
the attestation set handed to it), a retry sleep, or a result-callback
invocation delivering what result_handler produced. -/
lemma send_mem (accept : Nat → Bool) (coordRes : Option Bool)
    (atts : Finset Att) :
    ∀ fuel attempt e, e ∈ send_compact_tx accept coordRes atts attempt fuel →
      e = Event.coordSubmitAttempt atts ∨ e = Event.retryDelay ∨
        ∃ r ∈ result_handler coordRes, e = Event.resultCb r := by
  intro fuel
  induction fuel with
  | zero => intro attempt e h; simp [send_compact_tx] at h
  | succ f ih =>
    intro attempt e h
    rw [send_compact_tx] at h
    by_cases ha : accept attempt
    · rw [if_pos ha] at h
      rcases List.mem_cons.mp h with h1 | h1
      · exact Or.inl h1
      · obtain ⟨r, hr, hre⟩ := List.mem_map.mp h1
        exact Or.inr (Or.inr ⟨r, hr, hre.symm⟩)
    · rw [if_neg ha] at h
      rcases List.mem_cons.mp h with h1 | h1
      · exact Or.inl h1
      · rcases List.mem_cons.mp h1 with h2 | h2
        · exact Or.inr (Or.inl h2)
        · exact ih (attempt+1) e h2

/-- The submission loop dispatches no peer validate request. -/
lemma send_dispatched (accept : Nat → Bool) (coordRes : Option Bool)
    (atts : Finset Att) :
    ∀ fuel attempt,
      dispatched (send_compact_tx accept coordRes atts attempt fuel) = [] := by
  intro fuel attempt
  rw [dispatched, List.filterMap_eq_nil_iff]
  intro e he
  rcases send_mem accept coordRes atts fuel attempt e he with h1 | h1 | ⟨r, _, h1⟩ <;>
    subst h1 <;> rfl

/-- The submission loop produces no self-attestation event. -/
lemma send_no_selfAttest (accept : Nat → Bool) (coordRes : Option Bool)
    (atts : Finset Att) :
    ∀ fuel attempt,
      Event.selfAttest ∉ send_compact_tx accept coordRes atts attempt fuel := by
  intro fuel attempt h
  rcases send_mem accept coordRes atts fuel attempt _ h with h1 | h1 | ⟨r, _, h1⟩ <;>
    simp at h1

/-- Every submit attempt of the submission loop carries exactly the
attestation set it was handed. -/
lemma send_submit_atts (accept : Nat → Bool) (coordRes : Option Bool)
    (atts : Finset Att) :
    ∀ fuel attempt a,
      a ∈ submit_atts (send_compact_tx accept coordRes atts attempt fuel) →
        a = atts := by
  intro fuel attempt a ha
  simp only [submit_atts, List.mem_filterMap] at ha
  obtain ⟨e, he, hea⟩ := ha
  rcases send_mem accept coordRes atts fuel attempt e he with h1 | h1 | ⟨r, _, h1⟩ <;>
    subst h1 <;> simp at hea
  exact hea.symm

/-- With positive fuel the submission loop issues at least one submit call. -/
lemma send_submit_atts_ne (accept : Nat → Bool) (coordRes : Option Bool)
    (atts : Finset Att) (fuel attempt : Nat) (h : 0 < fuel) :
    submit_atts (send_compact_tx accept coordRes atts attempt fuel) ≠ [] := by
  obtain ⟨f, rfl⟩ := Nat.exists_eq_succ_of_ne_zero (Nat.pos_iff_ne_zero.mp h)
  rw [send_compact_tx]
  by_cases ha : accept attempt <;>
    simp [ha, submit_atts, List.filterMap_cons]

/-! ### Trace-projection unfolding lemmas -/

@[simp] lemma dispatched_nil : dispatched [] = [] := rfl

@[simp] lemma dispatched_cons_peerValidate (i : Nat) (l : List Event) :
    dispatched (Event.peerValidate i :: l) = i :: dispatched l := rfl

@[simp] lemma dispatched_cons_resultCb (r : Option ExecuteResponse)
    (l : List Event) : dispatched (Event.resultCb r :: l) = dispatched l := rfl

@[simp] lemma submit_atts_nil : submit_atts [] = [] := rfl

@[simp] lemma submit_atts_cons_attempt (a : Finset Att) (l : List Event) :
    submit_atts (Event.coordSubmitAttempt a :: l) = a :: submit_atts l := rfl

@[simp] lemma submit_atts_cons_delay (l : List Event) :
    submit_atts (Event.retryDelay :: l) = submit_atts l := rfl

@[simp] lemma submit_atts_cons_resultCb (r : Option ExecuteResponse)
    (l : List Event) : submit_atts (Event.resultCb r :: l) = submit_atts l :=
  rfl

@[simp] lemma callbacks_nil : callbacks [] = [] := rfl

@[simp] lemma callbacks_cons_resultCb (r : Option ExecuteResponse)
    (l : List Event) : callbacks (Event.resultCb r :: l) = r :: callbacks l :=
  rfl

@[simp] lemma callbacks_cons_attempt (a : Finset Att) (l : List Event) :
    callbacks (Event.coordSubmitAttempt a :: l) = callbacks l := rfl

@[simp] lemma callbacks_cons_delay (l : List Event) :
    callbacks (Event.retryDelay :: l) = callbacks l := rfl

@[simp] lemma callbacks_map_resultCb (l : List (Option ExecuteResponse)) :
    callbacks (l.map Event.resultCb) = l := by
  induction l with
  | nil => rfl
  | cons r tl ih => simp [ih]

@[simp] lemma submit_atts_map_resultCb (l : List (Option ExecuteResponse)) :
    submit_atts (l.map Event.resultCb) = [] := by
  induction l with
  | nil => rfl
  | cons r tl ih => simp [ih]

@[simp] lemma delay_count_nil : delay_count [] = 0 := rfl

@[simp] lemma delay_count_cons_attempt (a : Finset Att) (l : List Event) :
    delay_count (Event.coordSubmitAttempt a :: l) = delay_count l := by
  simp [delay_count, List.countP_cons]

@[simp] lemma delay_count_cons_delay (l : List Event) :
    delay_count (Event.retryDelay :: l) = delay_count l + 1 := by
  simp [delay_count, List.countP_cons]

@[simp] lemma delay_count_cons_resultCb (r : Option ExecuteResponse)
    (l : List Event) : delay_count (Event.resultCb r :: l) = delay_count l := by
  simp [delay_count, List.countP_cons]

@[simp] lemma delay_count_map_resultCb (l : List (Option ExecuteResponse)) :
    delay_count (l.map Event.resultCb) = 0 := by
  induction l with
  | nil => rfl
  | cons r tl ih => simp [ih]

/-! ### The peer-selection loop and gathering recursion -/

/-- A peer returned by the selection loop is never one already in
`requested`, and its dispatch was accepted. -/
lemma selectPeer_spec (dispatchOk : Nat → Bool) (requested : Finset Nat) :
    ∀ draws p rest, selectPeer dispatchOk requested draws = some (p, rest) →
      p ∉ requested ∧ dispatchOk p = true := by
  intro draws
  induction draws with
  | nil => intro p rest h; simp [selectPeer] at h
  | cons d tl ih =>
    intro p rest h
    rw [selectPeer] at h
    by_cases hd : d ∈ requested
    · rw [if_pos hd] at h; exact ih p rest h
    · rw [if_neg hd] at h
      by_cases hok : dispatchOk d
      · rw [if_pos hok] at h
        simp only [Option.some.injEq, Prod.mk.injEq] at h
        obtain ⟨rfl, rfl⟩ := h
        exact ⟨hd, hok⟩
      · rw [if_neg hok] at h; exact ih p rest h

/-- Along any gathering run the dispatched peers avoid the initial
`requested` set and contain no repeats. -/
lemma gather_dispatched_fresh (dispatchOk : Nat → Bool)
    (peerResult : Nat → Option Att) (accept : Nat → Bool)
    (coordRes : Option Bool) (sendFuel threshold : Nat) :
    ∀ fuel draws atts requested,
      (∀ p ∈ dispatched (gather_attestations dispatchOk peerResult accept
          coordRes sendFuel threshold fuel draws atts requested),
        p ∉ requested) ∧
      (dispatched (gather_attestations dispatchOk peerResult accept coordRes
          sendFuel threshold fuel draws atts requested)).Nodup := by
  intro fuel
  induction fuel with
  | zero =>
    intro draws atts requested
    rw [gather_attestations]
    by_cases h : atts.card < threshold
    · rw [if_pos h]; exact ⟨by simp, by simp⟩
    · rw [if_neg h, send_dispatched]
      exact ⟨by simp, List.nodup_nil⟩
  | succ f ih =>
    intro draws atts requested
    rw [gather_attestations]
    by_cases h : atts.card < threshold
    · rw [if_pos h]
      cases hsel : selectPeer dispatchOk requested draws with
      | none => exact ⟨by simp, by simp⟩
      | some pr =>
        obtain ⟨p, rest⟩ := pr
        have hp := selectPeer_spec dispatchOk requested draws p rest hsel
        cases hres : peerResult p with
        | none =>
          simp only [hres]
          refine ⟨?_, ?_⟩
          · intro q hq
            simp only [dispatched_cons_peerValidate, dispatched_cons_resultCb,
              dispatched_nil, List.mem_singleton] at hq
            subst hq; exact hp.1
          · simp
        | some a =>
          simp only [hres]
          have IH := ih rest (insert a atts) (insert p requested)
          refine ⟨?_, ?_⟩
          · intro q hq
            rcases List.mem_cons.mp
                (by simpa only [dispatched_cons_peerValidate] using hq)
              with h1 | h1
            · subst h1; exact hp.1
            · intro hqreq
              exact IH.1 q h1 (Finset.mem_insert_of_mem hqreq)
          · rw [dispatched_cons_peerValidate, List.nodup_cons]
            refine ⟨?_, IH.2⟩
            intro hpmem
            exact IH.1 p hpmem (Finset.mem_insert_self p requested)
    · rw [if_neg h, send_dispatched]
      exact ⟨by simp, List.nodup_nil⟩

/-! ### Counting lemmas for the submission loop -/

/-- If the transport refuses the first k submit calls after `attempt` and
accepts the next one, the loop issues exactly k+1 submit calls, sleeps the
fixed delay exactly k times, then delivers the coordinator outcome to the
caller exactly as result_handler maps it. -/
lemma send_counts (accept : Nat → Bool) (coordRes : Option Bool)
    (atts : Finset Att) :
    ∀ k attempt fuel, (∀ j, j < k → accept (attempt + j) = false) →
      accept (attempt + k) = true → k < fuel →
      submit_count (send_compact_tx accept coordRes atts attempt fuel)
          = k + 1 ∧
      delay_count (send_compact_tx accept coordRes atts attempt fuel) = k ∧
      callbacks (send_compact_tx accept coordRes atts attempt fuel)
          = result_handler coordRes := by
  intro k
  induction k with
  | zero =>
    intro attempt fuel hbefore hacc hfuel
    obtain ⟨f, rfl⟩ :=
      Nat.exists_eq_succ_of_ne_zero (Nat.pos_iff_ne_zero.mp hfuel)
    rw [send_compact_tx, if_pos (by simpa using hacc)]
    refine ⟨?_, ?_, ?_⟩ <;> simp [submit_count]
  | succ k ih =>
    intro attempt fuel hbefore hacc hfuel
    obtain ⟨f, rfl⟩ := Nat.exists_eq_succ_of_ne_zero
      (Nat.pos_iff_ne_zero.mp (Nat.lt_of_le_of_lt (Nat.zero_le _) hfuel))
    have h0 : accept attempt = false := by
      simpa using hbefore 0 (Nat.succ_pos k)
    rw [send_compact_tx, if_neg (by simp [h0])]
    have hb2 : ∀ j, j < k → accept (attempt + 1 + j) = false := by
      intro j hj
      have e1 : attempt + 1 + j = attempt + (j + 1) := by omega
      rw [e1]
      exact hbefore (j + 1) (by omega)
    have ha2 : accept (attempt + 1 + k) = true := by
      have e1 : attempt + 1 + k = attempt + (k + 1) := by omega
      rw [e1]; exact hacc
    have IH := ih (attempt + 1) f hb2 ha2 (by omega)
    refine ⟨?_, ?_, ?_⟩ <;>
      simp only [submit_atts_cons_attempt, submit_atts_cons_delay,
        delay_count_cons_attempt, delay_count_cons_delay,
        callbacks_cons_attempt, callbacks_cons_delay, submit_count,
        List.length_cons] at *
    · rw [IH.1]
    · rw [IH.2.1]
    · exact IH.2.2

/-- If the transport never accepts, every unit of fuel yields one more
submit call: the loop keeps retrying and never abandons the transaction. -/
lemma send_never_accepted (accept : Nat → Bool) (coordRes : Option Bool)
    (atts : Finset Att) (h : ∀ j, accept j = false) :
    ∀ fuel attempt,
      submit_count (send_compact_tx accept coordRes atts attempt fuel)
        = fuel := by
  intro fuel
  induction fuel with
  | zero => intro attempt; rfl
  | succ f ih =>
    intro attempt
    rw [send_compact_tx, if_neg (by simp [h attempt])]
    simp only [submit_count, submit_atts_cons_attempt, submit_atts_cons_delay,
      List.length_cons]
    rw [show (submit_atts
        (send_compact_tx accept coordRes atts (attempt + 1) f)).length
      = submit_count (send_compact_tx accept coordRes atts (attempt + 1) f)
      from rfl, ih (attempt + 1)]

/-- Once the attestation set is at threshold, gathering hands the compact
transaction to the submission loop no matter how much fuel remains. -/
lemma gather_at_threshold (dispatchOk : Nat → Bool)
    (peerResult : Nat → Option Att) (accept : Nat → Bool)
    (coordRes : Option Bool) (sendFuel threshold fuel : Nat)
    (draws : List Nat) (atts : Finset Att) (requested : Finset Nat)
    (h : ¬ atts.card < threshold) :
    gather_attestations dispatchOk peerResult accept coordRes sendFuel
        threshold fuel draws atts requested
      = send_compact_tx accept coordRes atts 0 sendFuel := by
  cases fuel <;> rw [gather_attestations] <;> rw [if_neg h]

/-! ### Claim theorems -/

/-- Claim C5: controller::result_handler maps the coordinator completion
value `some true` to one callback invocation with status confirmed,
`some false` to one invocation with status state_invalid, and an absent
value to one invocation delivering no response at all (never confirmed or
state_invalid); in every case the caller's callback runs exactly once. -/
theorem c5_result_mapping :
    result_handler (some true)
        = [some { tx_status := TxStatus.confirmed, validation_err := none }] ∧
    result_handler (some false)
        = [some { tx_status := TxStatus.state_invalid,
                  validation_err := none }] ∧
    result_handler none = [none] ∧
    ∀ res : Option Bool, (result_handler res).length = 1 := by
  refine ⟨rfl, rfl, rfl, ?_⟩
  intro res
  rcases res with _ | v
  · rfl
  · cases v <;> rfl

/-- Claim C9: execute_transaction returns true for every input transaction,
valid or invalid; rejection is never signalled through the return value,
only through the result callback. -/
theorem c9_execute_returns_true (check : Nat → Option Violation)
    (dispatchOk : Nat → Bool) (peerResult : Nat → Option Att)
    (accept : Nat → Bool) (coordRes : Option Bool)
    (sendFuel gatherFuel threshold : Nat) (draws : List Nat) (tx : Nat) :
    (execute_transaction check dispatchOk peerResult accept coordRes
      sendFuel gatherFuel threshold draws tx).1 = true := by
  cases h : check tx <;> simp [execute_transaction, h]

/-- Claim C4: when the validator reports a violation on a transaction,
execute_transaction's whole trace is a single result-callback invocation
with status static_invalid carrying that same violation reason — so the
callback runs exactly once and there is no peer dispatch, no coordinator
submit call, no self-attestation, and no compact-transaction
construction. -/
theorem c4_static_invalid (check : Nat → Option Violation)
    (dispatchOk : Nat → Bool) (peerResult : Nat → Option Att)
    (accept : Nat → Bool) (coordRes : Option Bool)
    (sendFuel gatherFuel threshold : Nat) (draws : List Nat)
    (tx : Nat) (err : Violation) (hviol : check tx = some err) :
    execute_transaction check dispatchOk peerResult accept coordRes
        sendFuel gatherFuel threshold draws tx
      = (true,
         [Event.resultCb (some { tx_status := TxStatus.static_invalid,
                                 validation_err := some err })]) ∧
    callbacks (execute_transaction check dispatchOk peerResult accept coordRes
        sendFuel gatherFuel threshold draws tx).2
      = [some { tx_status := TxStatus.static_invalid,
                validation_err := some err }] ∧
    dispatched (execute_transaction check dispatchOk peerResult accept coordRes
        sendFuel gatherFuel threshold draws tx).2 = [] ∧
    submit_count (execute_transaction check dispatchOk peerResult accept
        coordRes sendFuel gatherFuel threshold draws tx).2 = 0 ∧
    Event.compactTxBuilt ∉ (execute_transaction check dispatchOk peerResult
        accept coordRes sendFuel gatherFuel threshold draws tx).2 := by
  have he : execute_transaction check dispatchOk peerResult accept coordRes
      sendFuel gatherFuel threshold draws tx
    = (true,
       [Event.resultCb (some { tx_status := TxStatus.static_invalid,
                               validation_err := some err })]) := by
    simp [execute_transaction, hviol]
  rw [he]
  refine ⟨rfl, rfl, rfl, rfl, ?_⟩
  simp

/-- Concrete instance discharging claim C4's hypothesis: a validator that
rejects transaction 0 with violation 7. -/
theorem c4_witness :
    execute_transaction (fun t => if t = 0 then some 7 else none)
        (fun _ => true) (fun i => some (Att.peer i)) (fun _ => true)
        (some true) 1 1 2 [0] 0
      = (true,
         [Event.resultCb (some { tx_status := TxStatus.static_invalid,
                                 validation_err := some 7 })]) :=
  (c4_static_invalid (fun t => if t = 0 then some 7 else none)
    (fun _ => true) (fun i => some (Att.peer i)) (fun _ => true)
    (some true) 1 1 2 [0] 0 7 rfl).1

/-- Claim C1 as stated is false at this concrete input: the queried peer
reports invalidation (its validate result carries no attestation), and the
caller's callback receives an absent response — not a response of status
state_invalid — though indeed no coordinator submission occurs. -/
theorem c1_counterexample :
    callbacks (validate_result_handler (fun _ => true)
        (fun i => some (Att.peer i)) (fun _ => true) (some true) 1 2 5
        [0, 1, 2] none ∅ ∅) = [none] ∧
    submit_count (validate_result_handler (fun _ => true)
        (fun i => some (Att.peer i)) (fun _ => true) (some true) 1 2 5
        [0, 1, 2] none ∅ ∅) = 0 :=
  ⟨rfl, rfl⟩

/-- Claim C1 amended: whenever a queried peer reports invalidation, the
caller's result callback is invoked exactly once with an absent response
(the "no result delivered" outcome rather than a state_invalid status),
and no coordinator submission occurs for that transaction. -/
theorem c1_remote_invalidation (dispatchOk : Nat → Bool)
    (peerResult : Nat → Option Att) (accept : Nat → Bool)
    (coordRes : Option Bool) (sendFuel threshold fuel : Nat)
    (draws : List Nat) (ctx_atts : Finset Att) (requested : Finset Nat) :
    validate_result_handler dispatchOk peerResult accept coordRes sendFuel
        threshold fuel draws none ctx_atts requested
      = [Event.resultCb none] ∧
    callbacks (validate_result_handler dispatchOk peerResult accept coordRes
        sendFuel threshold fuel draws none ctx_atts requested) = [none] ∧
    submit_count (validate_result_handler dispatchOk peerResult accept
        coordRes sendFuel threshold fuel draws none ctx_atts requested)
      = 0 :=
  ⟨rfl, rfl, rfl⟩

/-- Claim C2: a gathering step only ever dispatches to a peer outside its
`requested` set, and the copy of the set it passes to the continuation —
`insert p requested` — is exactly one element larger; consequently, over a
whole run, no peer of the initial `requested` set is dispatched to again
and no peer is dispatched to twice (the per-branch copies are immutable by
construction in this embedding, as the by-value copies are in the
source). -/
theorem c2_requested_fresh (dispatchOk : Nat → Bool)
    (peerResult : Nat → Option Att) (accept : Nat → Bool)
    (coordRes : Option Bool) (sendFuel threshold fuel : Nat)
    (draws : List Nat) (atts : Finset Att) (requested : Finset Nat) :
    (∀ p rest, selectPeer dispatchOk requested draws = some (p, rest) →
        p ∉ requested ∧ (insert p requested).card = requested.card + 1) ∧
    (∀ p ∈ dispatched (gather_attestations dispatchOk peerResult accept
        coordRes sendFuel threshold fuel draws atts requested),
      p ∉ requested) ∧
    (dispatched (gather_attestations dispatchOk peerResult accept coordRes
        sendFuel threshold fuel draws atts requested)).Nodup := by
  have hfresh := gather_dispatched_fresh dispatchOk peerResult accept coordRes
    sendFuel threshold fuel draws atts requested
  refine ⟨?_, hfresh.1, hfresh.2⟩
  intro p rest hsel
  have hp := selectPeer_spec dispatchOk requested draws p rest hsel
  exact ⟨hp.1, Finset.card_insert_of_not_mem hp.1⟩

/-- Concrete instance of claim C2's run-level conjunct: with three peers, a
threshold of 2, and an in-order draw stream, the dispatched peers repeat no
index. -/
theorem c2_witness :
    (dispatched (gather_attestations (fun _ => true)
        (fun i => some (Att.peer i)) (fun _ => true) (some true) 1 2 3
        [0, 1, 2] ∅ ∅)).Nodup :=
  (c2_requested_fresh (fun _ => true) (fun i => some (Att.peer i))
    (fun _ => true) (some true) 1 2 3 [0, 1, 2] ∅ ∅).2.2

@[simp] lemma dispatched_cons_compactTxBuilt (l : List Event) :
    dispatched (Event.compactTxBuilt :: l) = dispatched l := rfl

@[simp] lemma submit_atts_cons_compactTxBuilt (l : List Event) :
    submit_atts (Event.compactTxBuilt :: l) = submit_atts l := rfl

@[simp] lemma callbacks_cons_compactTxBuilt (l : List Event) :
    callbacks (Event.compactTxBuilt :: l) = callbacks l := rfl

/-- Claim C3: with attestation threshold 0, a transaction that passes
static validation dispatches no peer validate request and produces no
self-attestation, and the compact transaction goes to the coordinator with
an empty attestation set: every submit call of the trace carries the empty
set, and with positive submission fuel at least one submit call is
issued. -/
theorem c3_threshold_zero (check : Nat → Option Violation)
    (dispatchOk : Nat → Bool) (peerResult : Nat → Option Att)
    (accept : Nat → Bool) (coordRes : Option Bool)
    (sendFuel gatherFuel : Nat) (draws : List Nat) (tx : Nat)
    (hvalid : check tx = none) (hfuel : 0 < sendFuel) :
    dispatched (execute_transaction check dispatchOk peerResult accept
        coordRes sendFuel gatherFuel 0 draws tx).2 = [] ∧
    Event.selfAttest ∉ (execute_transaction check dispatchOk peerResult
        accept coordRes sendFuel gatherFuel 0 draws tx).2 ∧
    submit_atts (execute_transaction check dispatchOk peerResult accept
        coordRes sendFuel gatherFuel 0 draws tx).2 ≠ [] ∧
    ∀ a ∈ submit_atts (execute_transaction check dispatchOk peerResult
        accept coordRes sendFuel gatherFuel 0 draws tx).2,
      a = (∅ : Finset Att) := by
  have he : (execute_transaction check dispatchOk peerResult accept coordRes
      sendFuel gatherFuel 0 draws tx).2
    = Event.compactTxBuilt ::
        send_compact_tx accept coordRes ∅ 0 sendFuel := by
    simp only [execute_transaction, hvalid]
    rw [gather_at_threshold _ _ _ _ _ _ _ _ _ _ (by simp)]
    simp
  rw [he]
  refine ⟨?_, ?_, ?_, ?_⟩
  · rw [dispatched_cons_compactTxBuilt, send_dispatched]
  · intro hmem
    rcases List.mem_cons.mp hmem with h1 | h1
    · exact Event.noConfusion h1
    · exact send_no_selfAttest accept coordRes ∅ sendFuel 0 h1
  · rw [submit_atts_cons_compactTxBuilt]
    exact send_submit_atts_ne accept coordRes ∅ sendFuel 0 hfuel
  · intro a ha
    rw [submit_atts_cons_compactTxBuilt] at ha
    exact send_submit_atts accept coordRes ∅ sendFuel 0 a ha

/-- Concrete instance discharging claim C3's hypotheses: an all-accepting
validator, submission fuel 1, transaction 5. -/
theorem c3_witness :
    dispatched (execute_transaction (fun _ => none) (fun _ => true)
        (fun i => some (Att.peer i)) (fun _ => true) (some true) 1 1 0 []
        5).2 = [] :=
  (c3_threshold_zero (fun _ => none) (fun _ => true)
    (fun i => some (Att.peer i)) (fun _ => true) (some true) 1 1 [] 5 rfl
    (by decide)).1

/-- Claim C6: the coordinator-submission loop re-issues the submit call,
with one fixed-delay sleep after each refusal, until an invocation is
accepted by the transport: if the first k calls are refused and the next
is accepted, exactly k+1 submit calls are issued with exactly k delays, the
coordinator's outcome is then delivered to the caller through
result_handler (the transaction is never silently dropped), and no further
submission occurs; and under a transport that never accepts, every unit of
fuel yields one more submit call — the retry never gives up. -/
theorem c6_submit_retry (accept : Nat → Bool) (coordRes : Option Bool)
    (atts : Finset Att) (k fuel : Nat)
    (hbefore : ∀ j, j < k → accept j = false) (hacc : accept k = true)
    (hfuel : k < fuel) :
    submit_count (send_compact_tx accept coordRes atts 0 fuel) = k + 1 ∧
    delay_count (send_compact_tx accept coordRes atts 0 fuel) = k ∧
    callbacks (send_compact_tx accept coordRes atts 0 fuel)
        = result_handler coordRes ∧
    ∀ accept2 : Nat → Bool, (∀ j, accept2 j = false) → ∀ f a,
        submit_count (send_compact_tx accept2 coordRes atts a f) = f := by
  have h := send_counts accept coordRes atts k 0 fuel
    (by simpa using hbefore) (by simpa using hacc) hfuel
  exact ⟨h.1, h.2.1, h.2.2,
    fun accept2 h2 f a => send_never_accepted accept2 coordRes atts h2 f a⟩

/-- Concrete instance discharging claim C6's hypotheses: a transport that
refuses the first two submit calls and accepts the third, with fuel 4. -/
theorem c6_witness :
    submit_count (send_compact_tx (fun n => decide (2 ≤ n)) (some true) ∅ 0
      4) = 3 :=
  (c6_submit_retry (fun n => decide (2 ≤ n)) (some true) ∅ 2 4
    (by intro j hj; simp only [decide_eq_false_iff_not]; omega)
    (by decide) (by decide)).1

/-- The configuration of claim C7's scenario: this sentinel (id 0, endpoint
7) is the only configured sentinel, it has a signing key, and the
attestation threshold is positive. -/
def c7_opts : SentinelOptions :=
  { coordinator_endpoints := [0]
    sentinel_endpoints := [7]
    sentinel_private_keys := [(0, 5)]
    attestation_threshold := 1 }

/-- Claim C7 as stated is false at this concrete configuration: with a
nonzero attestation threshold and zero peers besides this sentinel,
controller::init still returns true (a signing key is configured and the
RPC server starts); startup does not catch the degenerate configuration. -/
theorem c7_counterexample :
    0 < c7_opts.attestation_threshold ∧
    peer_count c7_opts.sentinel_endpoints 0 = 0 ∧
    controller_init c7_opts 0 true = true := by decide

/-- Claim C7 amended: controller::init performs no check relating the
attestation threshold to the number of peers.  Whenever the sentinel id is
in range for the (hence nonempty) sentinel endpoint list, a private key is
configured for this sentinel, and the RPC server starts, init returns true
— even when the threshold is nonzero and this sentinel's endpoint is the
only one configured — so the configuration error surfaces at request time,
not at startup. -/
theorem c7_init_no_peer_check (opts : SentinelOptions) (sentinel_id : Nat)
    (hid : sentinel_id < opts.sentinel_endpoints.length)
    (hkey : (find_private_key opts.sentinel_private_keys
        sentinel_id).isSome = true) :
    controller_init opts sentinel_id true = true := by
  have hne : opts.sentinel_endpoints.isEmpty = false := by
    cases hE : opts.sentinel_endpoints with
    | nil => rw [hE] at hid; simp at hid
    | cons a l => rfl
  have hnn : ¬ ((find_private_key opts.sentinel_private_keys
      sentinel_id).isNone ∧ 0 < opts.attestation_threshold) := by
    intro hcon
    rw [Option.isNone_iff_eq_none] at hcon
    rw [hcon.1] at hkey
    simp at hkey
  rw [controller_init, if_neg (by simp [hne]),
    if_neg (Nat.not_le.mpr hid), if_neg hnn, if_neg (by simp)]

/-- Concrete instance discharging claim C7's amended hypotheses, at the
degenerate configuration itself. -/
theorem c7_witness : controller_init c7_opts 0 true = true :=
  c7_init_no_peer_check c7_opts 0 (by decide) (by decide)

/-- Claim C8: for every sentinel identity and nonempty coordinator endpoint
list (both of uint32-representable size), the constructor's selected
coordinator endpoint is the configured list's entry at index
sentinel_id mod endpoint_count — a pure function of identity and
configuration, fixed for the process lifetime. -/
theorem c8_endpoint_selection (eps : List Nat) (sentinel_id : Nat)
    (hne : eps ≠ []) (hlen : eps.length < 2 ^ 32)
    (hsid : sentinel_id < 2 ^ 32) :
    coordinator_endpoint eps sentinel_id
      = some (eps.getD (sentinel_id % eps.length) 0) := by
  have h3 : eps.length ≠ 0 := by
    intro h; exact hne (List.eq_nil_of_length_eq_zero h)
  rw [coordinator_endpoint]
  simp only [Nat.mod_eq_of_lt hlen, Nat.mod_eq_of_lt hsid]
  rw [if_neg h3]

/-- Concrete instance discharging claim C8's hypotheses: three endpoints,
sentinel id 7, index 7 mod 3 = 1. -/
theorem c8_witness : coordinator_endpoint [10, 20, 30] 7 = some 20 :=
  c8_endpoint_selection [10, 20, 30] 7 (by decide) (by decide) (by decide)

/-- Claim C10: the constructor's endpoint computation takes
sentinel_id mod (endpoint-list size) with no emptiness guard; with an
empty list the divisor is zero and the error branch (C++ undefined
behaviour, modelled as none) is reached, while every nonempty list of
uint32-representable size yields a well-defined endpoint. -/
theorem c10_endpoint_requires_nonempty :
    (∀ sentinel_id : Nat, coordinator_endpoint [] sentinel_id = none) ∧
    (∀ (eps : List Nat) (sentinel_id : Nat), eps ≠ [] →
        eps.length < 2 ^ 32 →
        (coordinator_endpoint eps sentinel_id).isSome = true) := by
  constructor
  · intro sid; rfl
  · intro eps sid hne hlen
    have h3 : eps.length ≠ 0 := by
      intro h; exact hne (List.eq_nil_of_length_eq_zero h)
    rw [coordinator_endpoint]
    simp only [Nat.mod_eq_of_lt hlen]
    rw [if_neg h3]
    rfl

/-- Concrete instance exercising claim C10's nonempty branch. -/
theorem c10_witness : (coordinator_endpoint [5] 3).isSome = true :=
  c10_endpoint_requires_nonempty.2 [5] 3 (by decide) (by decide)

end CbdcSentinel2PC
